import Mathlib

/-!
# Verification of the `Adjacency` data class (nltools/data/adjacency.py)

Shallow embedding of the `Adjacency` class: a representation of pairwise
relationship matrices (distance / similarity / directed) stored as a
flattened vector.  Numeric values are modelled by `ℚ` (the source operates
on numpy floating point arrays; all comparisons in the verified claims are
exact equalities, so the idealisation to exact rationals is faithful).

A square matrix is modelled as a total function `ℕ → ℕ → ℚ` together with an
explicit side length `n`; only entries at indices `< n` are meaningful.
`numpy` 1-D / 2-D arrays are modelled by `NDArray` (a list, or a list of
rows).  Fallible Python code (raising exceptions) is modelled with
`Except String`.
-/

set_option autoImplicit false

/-- Entries of a square matrix (side length carried separately). -/
abbrev Mat : Type := ℕ → ℕ → ℚ

/-- A numpy array holding rationals: 1-dimensional or 2-dimensional. -/
inductive NDArray : Type where
  | one : List ℚ → NDArray
  | two : List (List ℚ) → NDArray
deriving DecidableEq

/- String constants (matrix type tags and error messages of the source). -/

def mtDistance : String := "distance"

def mtSimilarity : String := "similarity"

def mtDirected : String := "directed"

def mtDistanceFlat : String := "distance_flat"

def mtSimilarityFlat : String := "similarity_flat"

def mtDirectedFlat : String := "directed_flat"

def flatSuffix : String := "_flat"

def msgInvalidType : String := "ValueError: matrix_type must be [None, distance, similarity, directed, distance_flat, similarity_flat, directed_flat]"

def msgNotSquare : String := "ValueError: Data matrix must be square"

def msgSymMismatch : String := "ValueError: Not all matrices are of the same symmetric type."

def msgTypeMismatch : String := "ValueError: Not all matrices are of the same matrix type."

def msgListIndex : String := "IndexError: list index out of range"

def msgTooManyIndices : String := "IndexError: too many indices for array"

def msgRowIndex : String := "IndexError: index out of bounds"

def msgShape : String := "ValueError: Both Adjacency() instances need to be the same shape."

def msgTTestSingle : String := "ValueError: t-test cannot be run on single matrices."

def msgNotDistanceMat : String := "ValueError: Matrix is not a distance matrix."

def msgNotSimilarityMat : String := "ValueError: Matrix is not a similarity matrix."

def msgConcatNone : String := "TypeError: unsupported operand type(s) for +: NoneType and str"

def msgIncompatibleVec : String := "ValueError: Incompatible vector size. It must be a binomial coefficient n choose 2 for some integer n >= 2."

def msgReshape : String := "ValueError: cannot reshape array"

def msgTupleIndex : String := "IndexError: tuple index out of range"

def msgBadFlatVector : String := "ValueError: Data is not flattened upper triangle from similarity/distance matrix or flattened directed matrix."

def msgLabelsLength : String := "ValueError: Make sure the length of labels matches the shape of data."

def msgScalarMean : String := "model-scope: mean of a single matrix returns a numpy scalar, not an Adjacency"

def msgStackedSquareform : String := "model-scope: squareform of a stacked instance returns a Python list of matrices"

/-! ## Upper-triangle extraction and row-major flattening

`np.triu_indices(n, k=1)` enumerates the strictly-upper-triangle positions
`(i, j)`, `i < j < n`, in row-major order.  `_import_single_data` uses
`data[np.triu_indices(data.shape[0], k=1)]` to extract the stored vector of
a symmetric matrix, and `data.flatten()` (row-major) for a directed one. -/

/-- The strictly-upper-triangle entries of row `i`: `M i (i+1), …, M i (n-1)`. -/
def triuRowVec (M : Mat) (n i : ℕ) : List ℚ :=
  (List.range' (i + 1) (n - (i + 1))).map (M i)

/-- Rows `i, i+1, …` of the strictly-upper-triangle extraction (the fuel
argument only drives the recursion; `n - i ≤ fuel` in every use). -/
def triuFromAux (M : Mat) (n : ℕ) : ℕ → ℕ → List ℚ
  | 0, _ => []
  | fuel + 1, i => if i < n then triuRowVec M n i ++ triuFromAux M n fuel (i + 1) else []

/-- `data[np.triu_indices(n, k=1)]`: the strictly-upper-triangle entries of an
`n × n` matrix in row-major order. -/
def triuVec (M : Mat) (n : ℕ) : List ℚ :=
  triuFromAux M n n 0

/-- Start position (within `triuVec`) of the entries of row `i`. -/
def rowStart (n : ℕ) : ℕ → ℕ
  | 0 => 0
  | i + 1 => rowStart n i + (n - i - 1)

/-- Position of entry `(i, j)` (`i < j`) inside `triuVec`. -/
def triuIdx (n i j : ℕ) : ℕ :=
  rowStart n i + (j - i - 1)

/-- Row `i` of the row-major flattening of an `n × n` matrix. -/
def flatRowVec (M : Mat) (n i : ℕ) : List ℚ :=
  (List.range n).map (M i)

/-- Rows `i, i+1, …` of the row-major flattening (fuel-driven recursion). -/
def flatFromAux (M : Mat) (n : ℕ) : ℕ → ℕ → List ℚ
  | 0, _ => []
  | fuel + 1, i => if i < n then flatRowVec M n i ++ flatFromAux M n fuel (i + 1) else []

/-- `data.flatten()`: row-major flattening of an `n × n` matrix. -/
def flattenMat (M : Mat) (n : ℕ) : List ℚ :=
  flatFromAux M n n 0

theorem triuRowVec_length (M : Mat) (n i : ℕ) :
    (triuRowVec M n i).length = n - (i + 1) := by
  simp [triuRowVec]

theorem rowStart_succ (n i : ℕ) :
    rowStart n (i + 1) = rowStart n i + (n - i - 1) := rfl

theorem rowStart_mono (n : ℕ) {i j : ℕ} (h : i ≤ j) :
    rowStart n i ≤ rowStart n j := by
  induction j with
  | zero => simp [Nat.le_zero.mp h]
  | succ j ih =>
    rcases Nat.lt_or_ge i (j + 1) with h' | h'
    · exact le_trans (ih (by omega)) (by rw [rowStart_succ]; omega)
    · have hij : i = j + 1 := by omega
      rw [hij]

theorem rowStart_of_ge (n : ℕ) : ∀ i : ℕ, n ≤ i → rowStart n i = rowStart n n := by
  intro i
  induction i with
  | zero =>
    intro h
    have : n = 0 := by omega
    rw [this]
  | succ i ih =>
    intro h
    rcases Nat.lt_or_ge i n with h' | h'
    · have : n = i + 1 := by omega
      rw [this]
    · rw [rowStart_succ, ih h']
      have : n - i - 1 = 0 := by omega
      rw [this]
      simp

theorem triuFromAux_length (M : Mat) (n : ℕ) :
    ∀ fuel i, n - i ≤ fuel →
      (triuFromAux M n fuel i).length = rowStart n n - rowStart n i := by
  intro fuel
  induction fuel with
  | zero =>
    intro i hi
    rw [rowStart_of_ge n i (by omega)]
    simp [triuFromAux]
  | succ fuel ih =>
    intro i hi
    by_cases hin : i < n
    · rw [triuFromAux, if_pos hin, List.length_append, triuRowVec_length,
        ih (i + 1) (by omega)]
      have h1 : rowStart n (i + 1) = rowStart n i + (n - i - 1) := rowStart_succ n i
      have h2 : rowStart n (i + 1) ≤ rowStart n n := rowStart_mono n (by omega)
      omega
    · rw [triuFromAux, if_neg hin, rowStart_of_ge n i (by omega)]
      simp

theorem triuVec_length (M : Mat) (n : ℕ) :
    (triuVec M n).length = rowStart n n := by
  have := triuFromAux_length M n n 0 (by omega)
  simpa [triuVec, rowStart] using this

theorem triuFromAux_getD (M : Mat) (n : ℕ) :
    ∀ fuel i a b, n - i ≤ fuel → i ≤ a → a < b → b < n →
      (triuFromAux M n fuel i).getD (rowStart n a - rowStart n i + (b - a - 1)) 0
        = M a b := by
  intro fuel
  induction fuel with
  | zero =>
    intro i a b hfuel hia hab hbn
    omega
  | succ fuel ih =>
    intro i a b hfuel hia hab hbn
    have hin : i < n := by omega
    rw [triuFromAux, if_pos hin]
    rcases Nat.eq_or_lt_of_le hia with hia' | hia'
    · subst hia'
      have hsub : rowStart n i - rowStart n i = 0 := by omega
      rw [hsub, Nat.zero_add]
      have hlt : b - i - 1 < (triuRowVec M n i).length := by
        rw [triuRowVec_length]; omega
      rw [List.getD_eq_getElem?_getD, List.getElem?_append, if_pos hlt]
      rw [triuRowVec]
      have hlt2 : b - i - 1 < (List.range' (i + 1) (n - (i + 1))).length := by
        simp; omega
      rw [List.getElem?_map, List.getElem?_eq_getElem hlt2]
      simp only [Option.map_some', Option.getD_some]
      rw [List.getElem_range']
      congr 1
      omega
    · have hmono : rowStart n (i + 1) ≤ rowStart n a := rowStart_mono n (by omega)
      have hstep : rowStart n (i + 1) = rowStart n i + (n - i - 1) := rowStart_succ n i
      have hlen : (triuRowVec M n i).length = n - i - 1 := by
        rw [triuRowVec_length]; omega
      have hge : (triuRowVec M n i).length ≤
          rowStart n a - rowStart n i + (b - a - 1) := by omega
      rw [List.getD_eq_getElem?_getD, List.getElem?_append_right hge]
      have hidx : rowStart n a - rowStart n i + (b - a - 1) - (triuRowVec M n i).length
          = rowStart n a - rowStart n (i + 1) + (b - a - 1) := by omega
      rw [hidx, ← List.getD_eq_getElem?_getD]
      exact ih (i + 1) a b (by omega) (by omega) hab hbn

/-- Entry `(i, j)` of the stored upper-triangle vector (`i < j < n`). -/
theorem triuVec_getD (M : Mat) (n i j : ℕ) (hij : i < j) (hjn : j < n) :
    (triuVec M n).getD (triuIdx n i j) 0 = M i j := by
  have := triuFromAux_getD M n n 0 i j (by omega) (by omega) hij hjn
  simpa [triuVec, triuIdx, rowStart] using this

theorem flatRowVec_length (M : Mat) (n i : ℕ) :
    (flatRowVec M n i).length = n := by
  simp [flatRowVec]

theorem flatFromAux_length (M : Mat) (n : ℕ) :
    ∀ fuel i, n - i ≤ fuel → (flatFromAux M n fuel i).length = (n - i) * n := by
  intro fuel
  induction fuel with
  | zero =>
    intro i hi
    have : n - i = 0 := by omega
    simp [flatFromAux, this]
  | succ fuel ih =>
    intro i hi
    by_cases hin : i < n
    · rw [flatFromAux, if_pos hin, List.length_append, flatRowVec_length,
        ih (i + 1) (by omega)]
      have h1 : n - i = (n - (i + 1)) + 1 := by omega
      rw [h1, Nat.succ_mul]
      omega
    · have : n - i = 0 := by omega
      rw [flatFromAux, if_neg hin]
      simp [this]

theorem flattenMat_length (M : Mat) (n : ℕ) :
    (flattenMat M n).length = n * n := by
  have := flatFromAux_length M n n 0 (by omega)
  simpa [flattenMat] using this

theorem flatFromAux_getD (M : Mat) (n : ℕ) :
    ∀ fuel i a b, n - i ≤ fuel → i ≤ a → a < n → b < n →
      (flatFromAux M n fuel i).getD ((a - i) * n + b) 0 = M a b := by
  intro fuel
  induction fuel with
  | zero =>
    intro i a b hfuel hia han hbn
    omega
  | succ fuel ih =>
    intro i a b hfuel hia han hbn
    have hin : i < n := by omega
    rw [flatFromAux, if_pos hin]
    rcases Nat.eq_or_lt_of_le hia with hia' | hia'
    · subst hia'
      have hzero : (i - i) * n = 0 := by
        have : i - i = 0 := by omega
        simp [this]
      rw [hzero, Nat.zero_add]
      have hlt : b < (flatRowVec M n i).length := by
        rw [flatRowVec_length]; omega
      rw [List.getD_eq_getElem?_getD, List.getElem?_append, if_pos hlt]
      rw [flatRowVec]
      have hlt2 : b < (List.range n).length := by simp; omega
      rw [List.getElem?_map, List.getElem?_eq_getElem hlt2]
      simp only [Option.map_some', Option.getD_some]
      rw [List.getElem_range]
    · have h1 : a - i = (a - (i + 1)) + 1 := by omega
      have h2 : (a - i) * n = (a - (i + 1)) * n + n := by
        rw [h1, Nat.succ_mul]
      have hge : (flatRowVec M n i).length ≤ (a - i) * n + b := by
        rw [flatRowVec_length, h2]; omega
      rw [List.getD_eq_getElem?_getD, List.getElem?_append_right hge]
      have hidx : (a - i) * n + b - (flatRowVec M n i).length
          = (a - (i + 1)) * n + b := by
        rw [flatRowVec_length, h2]; omega
      rw [hidx, ← List.getD_eq_getElem?_getD]
      exact ih (i + 1) a b (by omega) (by omega) han hbn

/-- Entry `(i, j)` of the row-major flattening of an `n × n` matrix. -/
theorem flattenMat_getD (M : Mat) (n i j : ℕ) (hin : i < n) (hjn : j < n) :
    (flattenMat M n).getD (i * n + j) 0 = M i j := by
  have := flatFromAux_getD M n n 0 i j (by omega) (by omega) hin hjn
  simpa [flattenMat] using this

/-! ## Length arithmetic: `n(n-1)/2` and integer square roots -/

theorem rowStart_closed (n : ℕ) : ∀ i, i ≤ n →
    2 * rowStart n i + i * i + i = 2 * (i * n) := by
  intro i
  induction i with
  | zero => simp [rowStart]
  | succ i ih =>
    intro h
    have hih := ih (by omega)
    rw [rowStart_succ]
    obtain ⟨d, rfl⟩ : ∃ d, n = d + i + 1 := ⟨n - i - 1, by omega⟩
    have hsub : d + i + 1 - i - 1 = d := by omega
    rw [hsub]
    have e1 : (i + 1) * (i + 1) = i * i + 2 * i + 1 := by ring
    have e2 : (i + 1) * (d + i + 1) = i * (d + i + 1) + d + i + 1 := by ring
    rw [e1, e2]
    omega

/-- Twice the triangular stored-vector length equals `n * (n - 1)`. -/
theorem two_mul_rowStart_self (n : ℕ) : 2 * rowStart n n = n * (n - 1) := by
  have h := rowStart_closed n n le_rfl
  rcases n with _ | m
  · simp [rowStart]
  · have e0 : m + 1 - 1 = m := rfl
    rw [e0]
    have e2 : (m + 1) * (m + 1) = (m + 1) * m + (m + 1) := by ring
    rw [e2] at h
    omega

/-- `int(np.ceil(np.sqrt(m)))`: the ceiling of the square root. -/
def ceilSqrt (m : ℕ) : ℕ :=
  if Nat.sqrt m * Nat.sqrt m = m then Nat.sqrt m else Nat.sqrt m + 1

theorem ceilSqrt_mul_pred {n : ℕ} (h : 2 ≤ n) : ceilSqrt (n * (n - 1)) = n := by
  obtain ⟨m, rfl⟩ : ∃ m, n = m + 2 := ⟨n - 2, by omega⟩
  have e0 : m + 2 - 1 = m + 1 := rfl
  rw [e0]
  have hs : Nat.sqrt ((m + 2) * (m + 1)) = m + 1 := by
    have h1 : m + 1 ≤ Nat.sqrt ((m + 2) * (m + 1)) := by
      rw [Nat.le_sqrt]
      nlinarith
    have h2 : Nat.sqrt ((m + 2) * (m + 1)) < m + 2 := by
      rw [Nat.sqrt_lt]
      nlinarith
    omega
  rw [ceilSqrt, hs]
  have hne : (m + 1) * (m + 1) ≠ (m + 2) * (m + 1) := by
    intro he
    nlinarith [he]
  rw [if_neg hne]

theorem nat_sqrt_mul_self (n : ℕ) : Nat.sqrt (n * n) = n := by
  have h1 : n ≤ Nat.sqrt (n * n) := by
    rw [Nat.le_sqrt]
  have h2 : Nat.sqrt (n * n) < n + 1 := by
    rw [Nat.sqrt_lt]
    nlinarith
  omega

/-! ## Symmetry test, diagonal sum, scipy squareform (vector → matrix) -/

/-- `np.all(data[triu] == data.T[triu])` (lines 274-277): elementwise exact
equality of the strict upper triangles of `M` and `Mᵀ`. -/
def issym (M : Mat) (n : ℕ) : Bool :=
  decide (∀ i, i < n → ∀ j, j < n → i < j → M i j = M j i)

/-- `np.sum(np.diag(data))` (lines 281-283). -/
def diagSum (M : Mat) (n : ℕ) : ℚ :=
  ((List.range n).map (fun i => M i i)).sum

theorem issym_iff (M : Mat) (n : ℕ) :
    issym M n = true ↔ ∀ i, i < n → ∀ j, j < n → i < j → M i j = M j i := by
  simp [issym]

/-- `scipy.spatial.distance.squareform` on a 1-D vector (an external
collaborator of the source, used at lines 255, 266, 303): an empty vector
yields a `1 × 1` zero matrix; otherwise the side length is
`d = ceil(sqrt(2L))`, `d(d-1) = 2L` is required, and the result is the
symmetric matrix with zero diagonal whose strict upper triangle is `v` in
row-major order. -/
def scipySquareformVec (v : List ℚ) : Except String (ℕ × Mat) :=
  if v.length = 0 then .ok (1, fun _ _ => 0)
  else
    let d := ceilSqrt (2 * v.length)
    if d * (d - 1) = 2 * v.length then
      .ok (d, fun i j =>
        if i < j then v.getD (triuIdx d i j) 0
        else if j < i then v.getD (triuIdx d j i) 0
        else 0)
    else .error msgIncompatibleVec

/-! ## The Adjacency data model -/

/-- The fields assigned by `Adjacency.__init__` that the claims exercise
(`Y` is modelled as always empty; all claims construct without `Y`).
`matrix_type = none` models Python `None` (no type assigned). -/
structure Adjacency : Type where
  data : NDArray
  issymmetric : Bool
  matrix_type : Option String
  is_single_matrix : Bool
  labels : Option (List String)
deriving DecidableEq

/-- Result quadruple of `_import_single_data` (line 293). -/
structure ImportResult : Type where
  data : NDArray
  issymmetric : Bool
  matrix_type : Option String
  is_single_matrix : Bool
deriving DecidableEq

def defaultIR : ImportResult :=
  ⟨.one [], true, none, true⟩

/-- Raw numeric inputs to the constructor exercised by the claims: a 1-D
vector or a square `n × n` matrix.  (File paths, DataFrames and non-square
2-D arrays are outside the claims.) -/
inductive NPInput : Type where
  | vec : List ℚ → NPInput
  | mat : ℕ → Mat → NPInput

/-- The rows of an `n × n` matrix as a list of lists. -/
def matRows (n : ℕ) (M : Mat) : List (List ℚ) :=
  (List.range n).map (fun i => (List.range n).map (M i))

def ndOfInput : NPInput → NDArray
  | .vec v => .one v
  | .mat n M => .two (matRows n M)

/-- `test_is_single_matrix` (lines 215-219): true iff the array is 1-D. -/
def testIsSingleMatrix : NDArray → Bool
  | .one _ => true
  | .two _ => false

/-- Lines 280-291: symmetry test and matrix-type inference for a square
matrix when `matrix_type` is omitted.  A symmetric matrix whose diagonal sum
is neither `0` nor `n` gets no matrix type (`none`, i.e. Python `None`). -/
def importInferSquare (n : ℕ) (M : Mat) : ImportResult :=
  if issym M n then
    ⟨.one (triuVec M n), true,
      if diagSum M n = 0 then some mtDistance
      else if diagSum M n = (n : ℚ) then some mtSimilarity
      else none,
      true⟩
  else
    ⟨.one (flattenMat M n), false, some mtDirected, true⟩

/-- `_import_single_data` (lines 205-293), for vector / square-matrix inputs.
The `*_flat` branches keep the data as given (`directed_flat` flattens);
the non-flat explicit branches require a 2-D input (`data.shape[1]` on a 1-D
array raises `IndexError`); with `matrix_type` omitted, a 1-D input is
inverted through `scipy.squareform` and a square input is used directly,
after which symmetry and matrix type are inferred. -/
def importSingle (inp : NPInput) (matrix_type : Option String) :
    Except String ImportResult :=
  match matrix_type with
  | some t =>
    if t = mtDistanceFlat then
      .ok ⟨ndOfInput inp, true, some mtDistance, testIsSingleMatrix (ndOfInput inp)⟩
    else if t = mtSimilarityFlat then
      .ok ⟨ndOfInput inp, true, some mtSimilarity, testIsSingleMatrix (ndOfInput inp)⟩
    else if t = mtDirectedFlat then
      match inp with
      | .vec v => .ok ⟨.one v, false, some mtDirected, true⟩
      | .mat n M => .ok ⟨.one (flattenMat M n), false, some mtDirected, true⟩
    else if t = mtDistance ∨ t = mtSimilarity then
      match inp with
      | .vec _ => .error msgTupleIndex
      | .mat n M => .ok ⟨.one (triuVec M n), true, some t, true⟩
    else if t = mtDirected then
      match inp with
      | .vec _ => .error msgTupleIndex
      | .mat n M => .ok ⟨.one (flattenMat M n), false, some t, true⟩
    else
      .error msgInvalidType
  | none =>
    match inp with
    | .vec v =>
      match scipySquareformVec v with
      | .ok p => .ok (importInferSquare p.1 p.2)
      | .error _ => .error msgBadFlatVector
    | .mat n M => .ok (importInferSquare n M)

/-- `Adjacency.squareform` (lines 299-312) restricted to a single matrix:
symmetric data goes through `scipy.squareform`; directed data is reshaped to
`(isqrt L, isqrt L)` (raising when `L` is not a perfect square).  On a
stacked instance the source returns a Python list of matrices, one per row;
the claims only use the single-matrix form. -/
def squareformSingleAdj (A : Adjacency) : Except String (ℕ × Mat) :=
  match A.data with
  | .one v =>
    if A.issymmetric then scipySquareformVec v
    else
      let m := Nat.sqrt v.length
      if m * m = v.length then .ok (m, fun i j => v.getD (i * m + j) 0)
      else .error msgReshape
  | .two _ => .error msgStackedSquareform

/-- `square_shape()[0]` for a single matrix. -/
def squareShape0 (A : Adjacency) : Except String ℕ :=
  (squareformSingleAdj A).map (fun p => p.1)

/-- Label validation of `__init__` (lines 117-138) for a single matrix:
`len(labels)` must equal the square-form side length. -/
def attachLabels (A : Adjacency) (labels : Option (List String)) :
    Except String Adjacency :=
  match labels with
  | none => .ok A
  | some l =>
    match squareShape0 A with
    | .ok n => if l.length = n then .ok { A with labels := some l }
               else .error msgLabelsLength
    | .error e => .error e

/-- Valid `matrix_type` strings (lines 63-69). -/
def validType : Option String → Bool
  | none => true
  | some t => t = mtDistance ∨ t = mtSimilarity ∨ t = mtDirected ∨
      t = mtDistanceFlat ∨ t = mtSimilarityFlat ∨ t = mtDirectedFlat

/-- `Adjacency.__init__` on a single (non-list) numeric input. -/
def adjacencyOf (inp : NPInput) (matrix_type : Option String)
    (labels : Option (List String)) : Except String Adjacency :=
  if validType matrix_type then
    match importSingle inp matrix_type with
    | .ok r => attachLabels ⟨r.data, r.issymmetric, r.matrix_type, r.is_single_matrix, none⟩ labels
    | .error e => .error e
  else .error msgInvalidType

/-- Modelled from the spec: `nltools.utils.all_same` (imported by the source
but not under src/) — §4.1 requires every element of a list input to resolve
to the same `issymmetric` and the same `matrix_type`, mismatches failing with
a validation error; `all_same` is therefore equality of all elements. -/
def allSame {α : Type} [DecidableEq α] : List α → Bool
  | [] => true
  | x :: xs => xs.all (fun y => decide (y = x))

/-- A stacked row for `np.array(d_all)` (line 96). -/
def ndAsRow : NDArray → List ℚ
  | .one v => v
  | .two m => m.flatten

/-- `Adjacency.__init__` on a list of raw numeric inputs (lines 76-99):
`data[0]` on an empty list raises `IndexError`; each element is imported
with the shared `matrix_type`; all elements must agree on `issymmetric` and
on `matrix_type`; the rows are stacked and `is_single_matrix` is `False`. -/
def adjacencyOfList (ms : List NPInput) (matrix_type : Option String) :
    Except String Adjacency :=
  if validType matrix_type then
    match ms with
    | [] => .error msgListIndex
    | _ :: _ =>
      match ms.mapM (fun m => importSingle m matrix_type) with
      | .error e => .error e
      | .ok rs =>
        if allSame (rs.map (fun r => r.issymmetric)) then
          if allSame (rs.map (fun r => r.matrix_type)) then
            .ok ⟨.two (rs.map (fun r => ndAsRow r.data)),
              (rs.headD defaultIR).issymmetric,
              (rs.headD defaultIR).matrix_type, false, none⟩
          else .error msgTypeMismatch
        else .error msgSymMismatch
  else .error msgInvalidType

/-- `data.shape[0]`. -/
def nd0 : NDArray → ℕ
  | .one v => v.length
  | .two m => m.length

/-- `data.shape` (rows of a 2-D array all share the length of the first
row in a genuine numpy array). -/
def shapeND : NDArray → List ℕ
  | .one v => [v.length]
  | .two m => [m.length, (m.headD []).length]

/-- `__len__` (lines 162-166). -/
def lenAdj (A : Adjacency) : ℕ :=
  if A.is_single_matrix then 1 else nd0 A.data

/-! ## Indexing, iteration, arithmetic -/

/-- `__getitem__` with an integer index (lines 151-160): copies the
instance, takes `data[index, :]` (raising `IndexError` on a 1-D array,
i.e. on a single matrix) and marks the result single.  `Y` is empty in the
modelled instances. -/
def getItemInt (A : Adjacency) (i : ℕ) : Except String Adjacency :=
  match A.data with
  | .one _ => .error msgTooManyIndices
  | .two m =>
    if i < m.length then
      .ok { A with data := .one (m.getD i []), is_single_matrix := true }
    else .error msgRowIndex

/-- `__iter__` (lines 168-170): yields `self[x]` for `x in range(len(self))`.
The generator is materialised; an `IndexError` raised while iterating is the
`Except.error` outcome. -/
def iterAdj (A : Adjacency) : Except String (List Adjacency) :=
  (List.range (lenAdj A)).mapM (getItemInt A)

/-- The right operand of `+`, `-`, `*` (lines 172-203): an int, a float, an
Adjacency, or anything else (string, list, numpy array, …). -/
inductive Operand : Type where
  | int : ℤ → Operand
  | float : ℚ → Operand
  | adj : Adjacency → Operand
  | other : Operand

/-- Elementwise map over a numpy array. -/
def mapND (f : ℚ → ℚ) : NDArray → NDArray
  | .one v => .one (v.map f)
  | .two m => .two (m.map (fun r => r.map f))

/-- Elementwise combination of two same-shaped numpy arrays (the operators
guard on `shape()` equality before combining; the mixed arms are
unreachable under that guard). -/
def zipND (f : ℚ → ℚ → ℚ) : NDArray → NDArray → NDArray
  | .one v, .one w => .one (List.zipWith f v w)
  | .two a, .two b => .two (List.zipWith (fun r s => List.zipWith f r s) a b)
  | .one v, .two _ => .one v
  | .two a, .one _ => .two a

/-- `__add__` (lines 172-181): deep-copies the receiver; adds a scalar or a
same-shaped Adjacency into `data`; any other operand type falls through both
`isinstance` tests and the unchanged copy is returned. -/
def addAdj (A : Adjacency) (y : Operand) : Except String Adjacency :=
  match y with
  | .int k => .ok { A with data := mapND (fun x => x + (k : ℚ)) A.data }
  | .float q => .ok { A with data := mapND (fun x => x + q) A.data }
  | .adj B =>
    if shapeND A.data = shapeND B.data then
      .ok { A with data := zipND (fun x y => x + y) A.data B.data }
    else .error msgShape
  | .other => .ok A

/-- `__sub__` (lines 183-192). -/
def subAdj (A : Adjacency) (y : Operand) : Except String Adjacency :=
  match y with
  | .int k => .ok { A with data := mapND (fun x => x - (k : ℚ)) A.data }
  | .float q => .ok { A with data := mapND (fun x => x - q) A.data }
  | .adj B =>
    if shapeND A.data = shapeND B.data then
      .ok { A with data := zipND (fun x y => x - y) A.data B.data }
    else .error msgShape
  | .other => .ok A

/-- `__mul__` (lines 194-203): scalar multiplication or elementwise
`np.multiply`. -/
def mulAdj (A : Adjacency) (y : Operand) : Except String Adjacency :=
  match y with
  | .int k => .ok { A with data := mapND (fun x => x * (k : ℚ)) A.data }
  | .float q => .ok { A with data := mapND (fun x => x * q) A.data }
  | .adj B =>
    if shapeND A.data = shapeND B.data then
      .ok { A with data := zipND (fun x y => x * y) A.data B.data }
    else .error msgShape
  | .other => .ok A

/-! ## Thresholding -/

/-- Python truthiness of an optional float cutoff: `None` and `0.0` are
falsy (the source tests `if upper and lower:` etc., lines 561-566). -/
def truthy : Option ℚ → Bool
  | none => false
  | some q => decide (q ≠ 0)

/-- `threshold` (lines 531-569) with numeric cutoffs (percentile strings are
outside the claims): zeroes the masked entries of a copy, then optionally
binarizes every nonzero value to 1. -/
def thresholdAdj (A : Adjacency) (upper lower : Option ℚ) (binarize : Bool) :
    Adjacency :=
  let u := upper.getD 0
  let l := lower.getD 0
  let d1 :=
    if truthy upper && truthy lower then
      mapND (fun x => if x < u ∧ l < x then 0 else x) A.data
    else if truthy upper then
      mapND (fun x => if x < u then 0 else x) A.data
    else if truthy lower then
      mapND (fun x => if l < x then 0 else x) A.data
    else A.data
  { A with data := if binarize then mapND (fun x => if x ≠ 0 then 1 else x) d1 else d1 }

/-- All entries of a numpy array, flattened. -/
def ndToList : NDArray → List ℚ
  | .one v => v
  | .two m => m.flatten

/-! ## mean(axis=0), ttest, distance/similarity conversion -/

/-- `mean(axis=0)` on a stacked instance (lines 355-362): builds
`Adjacency(np.mean(self.data, axis=0), matrix_type=self.matrix_type + "_flat")`.
When `matrix_type` is Python `None` the string concatenation raises
`TypeError`.  On a single matrix the source returns a numpy scalar instead
(outside the claims). -/
def meanAxis0 (A : Adjacency) : Except String Adjacency :=
  if A.is_single_matrix then .error msgScalarMean
  else
    match A.matrix_type with
    | none => .error msgConcatNone
    | some t =>
      match A.data with
      | .one v => adjacencyOf (.vec v) (some (t ++ flatSuffix)) none
      | .two m =>
        adjacencyOf (.vec ((List.range (m.headD []).length).map
          (fun j => ((m.map (fun r => r.getD j 0)).sum) / (m.length : ℚ))))
          (some (t ++ flatSuffix)) none

/-- `ttest` (lines 588-616): refuses a single matrix; on a stack the
statistical outputs (`scipy.stats.ttest_1samp`, external collaborator) are
packaged through `self.mean()`, whose validity pipeline is modelled; the
numeric t/p values themselves are external and not modelled. -/
def ttestAdj (A : Adjacency) : Except String Unit :=
  if A.is_single_matrix then .error msgTTestSingle
  else (meanAxis0 A).map (fun _ => ())

/-- `similarity_to_distance` (lines 830-836): requires
`matrix_type == similarity`; builds `Adjacency(1 - self.squareform(),
labels=self.labels, matrix_type=distance)`. -/
def similarityToDistance (A : Adjacency) : Except String Adjacency :=
  if A.matrix_type = some mtSimilarity then
    match squareformSingleAdj A with
    | .ok p => adjacencyOf (.mat p.1 (fun i j => 1 - p.2 i j)) (some mtDistance) A.labels
    | .error e => .error e
  else .error msgNotSimilarityMat

/-- `distance_to_similarity` (lines 814-828): requires
`matrix_type == distance`; builds `Adjacency(f(self.squareform()),
labels=self.labels, matrix_type=similarity)` where
`f = np.exp(-beta * S / S.std())` is the external numpy computation,
abstracted as a parameter (it is real-valued and total). -/
def distanceToSimilarity (A : Adjacency) (f : ℕ → Mat → Mat) :
    Except String Adjacency :=
  if A.matrix_type = some mtDistance then
    match squareformSingleAdj A with
    | .ok p => adjacencyOf (.mat p.1 (f p.1 p.2)) (some mtSimilarity) A.labels
    | .error e => .error e
  else .error msgNotDistanceMat

/-! ## Round-trip lemmas -/


/-- Any successful `scipy.squareform` of a vector yields a symmetric matrix
with zero diagonal and positive side length. -/
theorem scipy_ok_props (v : List ℚ) (n : ℕ) (S : Mat)
    (h : scipySquareformVec v = .ok (n, S)) :
    (∀ i j, S i j = S j i) ∧ (∀ i, S i i = 0) ∧ 1 ≤ n := by
  rw [scipySquareformVec] at h
  by_cases hz : v.length = 0
  · rw [if_pos hz] at h
    injection h with h1
    injection h1 with h2 h3
    subst h2
    subst h3
    exact ⟨fun i j => rfl, fun i => rfl, le_refl 1⟩
  · rw [if_neg hz] at h
    simp only at h
    by_cases hc : ceilSqrt (2 * v.length) * (ceilSqrt (2 * v.length) - 1) = 2 * v.length
    · rw [if_pos hc] at h
      injection h with h1
      injection h1 with h2 h3
      subst h2
      subst h3
      refine ⟨?_, ?_, ?_⟩
      · intro i j
        dsimp only
        rcases Nat.lt_trichotomy i j with hij | hij | hij
        · have h1 : ¬ j < i := by omega
          simp [hij, h1]
        · subst hij
          simp
        · have h1 : ¬ i < j := by omega
          simp [hij, h1]
      · intro i
        simp
      · rcases Nat.eq_zero_or_pos (ceilSqrt (2 * v.length)) with h0 | h0
        · exfalso
          rw [h0, Nat.zero_mul] at hc
          omega
        · omega
    · rw [if_neg hc] at h
      cases h

/-- Flatten-then-unflatten for a symmetric matrix: `scipy.squareform` of the
strict upper-triangle vector of a symmetric `n × n` matrix (`n ≥ 1`)
reconstructs it, with the diagonal normalised to zero. -/
theorem scipy_triuVec_roundtrip (M : Mat) (n : ℕ) (hn : 1 ≤ n)
    (hs : issym M n = true) :
    ∃ S : Mat, scipySquareformVec (triuVec M n) = .ok (n, S) ∧
      (∀ i, i < n → ∀ j, j < n → i ≠ j → S i j = M i j) ∧
      (∀ i, i < n → S i i = 0) := by
  have hL : (triuVec M n).length = rowStart n n := triuVec_length M n
  have h2L : 2 * rowStart n n = n * (n - 1) := two_mul_rowStart_self n
  rcases Nat.lt_or_ge n 2 with h2 | h2
  · have hn1 : n = 1 := by omega
    subst hn1
    have hz : (triuVec M 1).length = 0 := by
      rw [hL]
      rfl
    refine ⟨fun _ _ => 0, ?_, ?_, ?_⟩
    · rw [scipySquareformVec, if_pos hz]
    · intro i hi j hj hij
      omega
    · intro i _
      rfl
  · obtain ⟨m, rfl⟩ : ∃ m, n = m + 2 := ⟨n - 2, by omega⟩
    have harg : 2 * (triuVec M (m + 2)).length = (m + 2) * (m + 2 - 1) := by
      omega
    have hne : ¬ (triuVec M (m + 2)).length = 0 := by
      have e0 : (m + 2) * (m + 2 - 1) = (m + 2) * (m + 1) := rfl
      rw [e0] at harg
      nlinarith [harg]
    refine ⟨fun i j => if i < j then (triuVec M (m + 2)).getD (triuIdx (m + 2) i j) 0
      else if j < i then (triuVec M (m + 2)).getD (triuIdx (m + 2) j i) 0
      else 0, ?_, ?_, ?_⟩
    · rw [scipySquareformVec, if_neg hne]
      simp only [harg, ceilSqrt_mul_pred h2]
      simp
    · intro i hi j hj hij
      dsimp only
      rcases Nat.lt_or_ge i j with hij' | hij'
      · rw [if_pos hij']
        exact triuVec_getD M (m + 2) i j hij' hj
      · have hji : j < i := by omega
        rw [if_neg (by omega : ¬ i < j), if_pos hji]
        rw [triuVec_getD M (m + 2) j i hji hi]
        exact (issym_iff M (m + 2)).mp hs j hj i hi hji
    · intro i hi
      simp

/-! ## Evaluation helpers for the claim theorems -/

theorem nat_sqrt_eq_of (m k : ℕ) (h1 : k * k ≤ m) (h2 : m < (k + 1) * (k + 1)) :
    Nat.sqrt m = k := by
  have ha : k ≤ Nat.sqrt m := Nat.le_sqrt.mpr h1
  have hb : Nat.sqrt m < k + 1 := Nat.sqrt_lt.mpr h2
  omega

theorem adjacencyOf_none_mat (n : ℕ) (M : Mat) :
    adjacencyOf (.mat n M) none none =
      .ok ⟨(importInferSquare n M).data, (importInferSquare n M).issymmetric,
        (importInferSquare n M).matrix_type,
        (importInferSquare n M).is_single_matrix, none⟩ := rfl

theorem importInferSquare_sym (n : ℕ) (M : Mat) (hs : issym M n = true) :
    importInferSquare n M = ⟨.one (triuVec M n), true,
      (if diagSum M n = 0 then some mtDistance
       else if diagSum M n = (n : ℚ) then some mtSimilarity else none), true⟩ := by
  rw [importInferSquare, if_pos hs]

theorem importInferSquare_asym (n : ℕ) (M : Mat) (hs : issym M n = false) :
    importInferSquare n M = ⟨.one (flattenMat M n), false, some mtDirected, true⟩ := by
  rw [importInferSquare, if_neg]
  simp [hs]

/-- `construct(M)` then `squareform()`: the round-trip pipeline of the spec. -/
def constructSquareform (inp : NPInput) : Except String (ℕ × Mat) :=
  match adjacencyOf inp none none with
  | .ok A => squareformSingleAdj A
  | .error e => .error e

theorem mapM_ok {α β : Type} (f : α → Except String β) (g : α → β) :
    ∀ l : List α, (∀ a ∈ l, f a = .ok (g a)) → l.mapM f = .ok (l.map g) := by
  intro l
  induction l with
  | nil => intro _; rfl
  | cons x xs ih =>
    intro h
    rw [List.mapM_cons, h x (by simp), ih (fun a ha => h a (by simp [ha]))]
    rfl

theorem allSame_of_eq {α : Type} [DecidableEq α] (l : List α) (c : α)
    (h : ∀ x ∈ l, x = c) : allSame l = true := by
  cases l with
  | nil => rfl
  | cons x xs =>
    rw [allSame]
    rw [List.all_eq_true]
    intro y hy
    rw [h y (by simp [hy]), h x (by simp)]
    simp

theorem map_range_getD {α β : Type} (l : List α) (d : α) (F : α → β) :
    (List.range l.length).map (fun i => F (l.getD i d)) = l.map F := by
  apply List.ext_getElem
  · simp
  · intro i h1 h2
    simp only [List.getElem_map, List.getElem_range]
    rw [List.getD_eq_getElem l d (by simpa using h2)]

/-! ## Claim C1: round-trip losslessness of the canonical storage -/

/-- C1 (amended: the side length must be at least 1; the `0 × 0` matrix is
flattened to the same empty vector as the `1 × 1` matrix, and
`scipy.squareform` maps the empty vector back to a `1 × 1` zero matrix).
For every square symmetric matrix `M` of side `n ≥ 1` with zero diagonal
(or unit diagonal), constructing an Adjacency from `M` and calling
`squareform()` reconstructs `M` exactly up to the zero/unit diagonal
convention; and for every square asymmetric (directed) matrix `M`,
constructing and calling `squareform()` reconstructs `M` exactly. -/
theorem claim_c1 (n : ℕ) (M : Mat) (hn : 1 ≤ n) :
    (issym M n = true →
      ((∀ i, i < n → M i i = 0) ∨ (∀ i, i < n → M i i = 1)) →
      ∃ S : Mat, constructSquareform (.mat n M) = .ok (n, S) ∧
        (∀ i, i < n → ∀ j, j < n → i ≠ j → S i j = M i j) ∧
        (∀ i, i < n → S i i = 0)) ∧
    (issym M n = false →
      ∃ S : Mat, constructSquareform (.mat n M) = .ok (n, S) ∧
        (∀ i, i < n → ∀ j, j < n → S i j = M i j)) := by
  constructor
  · intro hs _hdiag
    obtain ⟨S, hS, hoff, hdiag0⟩ := scipy_triuVec_roundtrip M n hn hs
    refine ⟨S, ?_, hoff, hdiag0⟩
    rw [constructSquareform, adjacencyOf_none_mat, importInferSquare_sym n M hs]
    exact hS
  · intro hs
    have hlen : (flattenMat M n).length = n * n := flattenMat_length M n
    have hm : Nat.sqrt (flattenMat M n).length = n := by
      rw [hlen, nat_sqrt_mul_self]
    refine ⟨fun i j => (flattenMat M n).getD (i * n + j) 0, ?_, ?_⟩
    · rw [constructSquareform, adjacencyOf_none_mat, importInferSquare_asym n M hs]
      show squareformSingleAdj
          ⟨.one (flattenMat M n), false, some mtDirected, true, none⟩ = _
      rw [squareformSingleAdj]
      simp only [Bool.false_eq_true, if_false]
      rw [hm, hlen, if_pos rfl]
    · intro i hi j hj
      exact flattenMat_getD M n i j hi hj

def mat03 : Mat := fun i j => if i = j then 0 else 3

theorem claim_c1_witness :
    ∃ S : Mat, constructSquareform (.mat 2 mat03) = .ok (2, S) ∧
      (∀ i, i < 2 → ∀ j, j < 2 → i ≠ j → S i j = mat03 i j) ∧
      (∀ i, i < 2 → S i i = 0) :=
  (claim_c1 2 mat03 (by omega)).1 (by decide) (Or.inl (by decide))

def zeroMat : Mat := fun _ _ => 0

/-- C1 counterexample: the `0 × 0` matrix is square, symmetric, with
(vacuously) zero diagonal, yet the constructed instance's `squareform()`
returns a `1 × 1` matrix, not the original `0 × 0` one. -/
theorem claim_c1_counterexample :
    issym zeroMat 0 = true ∧ diagSum zeroMat 0 = 0 ∧
    (constructSquareform (.mat 0 zeroMat)).map (fun p => p.1) = .ok 1 ∧
    (1 : ℕ) ≠ 0 :=
  ⟨by decide, rfl, rfl, by decide⟩

/-! ## Claim C2: type inference on construction -/

/-- C2 (amended: the similarity inference additionally needs `n ≥ 1`; for
the `0 × 0` input the diagonal sum equals both `0` and `n`, and the source's
zero test fires first, yielding `distance`).  A square symmetric input with
diagonal sum exactly 0 constructs with `matrix_type = distance`; with
diagonal sum exactly `n` (and `n ≥ 1`) it constructs with
`matrix_type = similarity`; in both cases `issymmetric` is true and `data`
holds the off-diagonal upper-triangle values in row-major order. -/
theorem claim_c2 (n : ℕ) (M : Mat) (hs : issym M n = true) :
    (diagSum M n = 0 →
      ∃ A, adjacencyOf (.mat n M) none none = .ok A ∧
        A.matrix_type = some mtDistance ∧ A.issymmetric = true ∧
        A.data = .one (triuVec M n) ∧
        ∀ i, i < n → ∀ j, j < n → i < j →
          (triuVec M n).getD (triuIdx n i j) 0 = M i j) ∧
    (1 ≤ n → diagSum M n = (n : ℚ) →
      ∃ A, adjacencyOf (.mat n M) none none = .ok A ∧
        A.matrix_type = some mtSimilarity ∧ A.issymmetric = true ∧
        A.data = .one (triuVec M n) ∧
        ∀ i, i < n → ∀ j, j < n → i < j →
          (triuVec M n).getD (triuIdx n i j) 0 = M i j) := by
  constructor
  · intro h0
    refine ⟨⟨.one (triuVec M n), true, some mtDistance, true, none⟩, ?_, rfl, rfl, rfl,
      fun i hi j hj hij => triuVec_getD M n i j hij hj⟩
    rw [adjacencyOf_none_mat, importInferSquare_sym n M hs]
    dsimp only
    rw [if_pos h0]
  · intro hn hsum
    have h0 : ¬ diagSum M n = 0 := by
      rw [hsum]
      intro hc
      have hnz : (n : ℚ) ≠ 0 := by
        simp
        omega
      exact hnz hc
    refine ⟨⟨.one (triuVec M n), true, some mtSimilarity, true, none⟩, ?_, rfl, rfl, rfl,
      fun i hi j hj hij => triuVec_getD M n i j hij hj⟩
    rw [adjacencyOf_none_mat, importInferSquare_sym n M hs]
    dsimp only
    rw [if_neg h0, if_pos hsum]

/-- The spec's example scenario 1: `[[1,0.5,0.2],[0.5,1,0.3],[0.2,0.3,1]]`. -/
def symW : Mat := fun i j =>
  if i = j then 1
  else if i + j = 1 then 1/2
  else if i + j = 2 then 1/5
  else 3/10

theorem claim_c2_witness :
    (∃ A, adjacencyOf (.mat 3 symW) none none = .ok A ∧
      A.matrix_type = some mtSimilarity ∧ A.issymmetric = true ∧
      A.data = .one (triuVec symW 3) ∧
      ∀ i, i < 3 → ∀ j, j < 3 → i < j →
        (triuVec symW 3).getD (triuIdx 3 i j) 0 = symW i j) ∧
    triuVec symW 3 = [1/2, 1/5, 3/10] := by
  constructor
  · refine (claim_c2 3 symW ?_).2 (by omega) ?_
    · rw [issym]
      norm_num [symW]
      intro i hi j hj hij
      interval_cases i <;> interval_cases j <;> norm_num
    · norm_num [diagSum, symW, List.range, List.range.loop]
  · norm_num [triuVec, triuFromAux, triuRowVec, symW, List.range']

/-- C2 counterexample: the `0 × 0` input is symmetric with diagonal sum
equal to its side length `n = 0`, but the constructed `matrix_type` is
`distance`, not `similarity`. -/
theorem claim_c2_counterexample :
    issym zeroMat 0 = true ∧ diagSum zeroMat 0 = ((0 : ℕ) : ℚ) ∧
    adjacencyOf (.mat 0 zeroMat) none none =
      .ok ⟨.one [], true, some mtDistance, true, none⟩ ∧
    some mtDistance ≠ some mtSimilarity := by
  refine ⟨by decide, by norm_num [diagSum], rfl, ?_⟩
  simp [mtDistance, mtSimilarity]

/-! ## Claim C3: unhandled diagonal sum leaves matrix_type unassigned -/

/-- C3: a square symmetric input whose diagonal sum is neither 0 nor `n`
constructs successfully (no descriptive error) with `matrix_type`
unassigned (Python `None`); referencing it later — here through
`mean(axis=0)` on a stack of such matrices, which evaluates
`self.matrix_type + "_flat"` — raises an unrelated `TypeError`. -/
theorem claim_c3 (n : ℕ) (M : Mat) (hs : issym M n = true)
    (h0 : diagSum M n ≠ 0) (hn : diagSum M n ≠ (n : ℚ)) :
    (∃ A, adjacencyOf (.mat n M) none none = .ok A ∧ A.matrix_type = none) ∧
    (∃ B, adjacencyOfList [.mat n M, .mat n M] none = .ok B ∧
      B.matrix_type = none ∧ B.is_single_matrix = false ∧
      meanAxis0 B = .error msgConcatNone) := by
  have hr : importInferSquare n M = ⟨.one (triuVec M n), true, none, true⟩ := by
    rw [importInferSquare_sym n M hs, if_neg h0, if_neg hn]
  constructor
  · refine ⟨⟨.one (triuVec M n), true, none, true, none⟩, ?_, rfl⟩
    rw [adjacencyOf_none_mat, hr]
  · refine ⟨⟨.two [triuVec M n, triuVec M n], true, none, false, none⟩, ?_, rfl, rfl, rfl⟩
    have hmapM : ([NPInput.mat n M, NPInput.mat n M].mapM
        (fun m => importSingle m none))
        = .ok ([NPInput.mat n M, NPInput.mat n M].map
          (fun _ => (⟨.one (triuVec M n), true, none, true⟩ : ImportResult))) := by
      apply mapM_ok
      intro a ha
      have ha' : a = NPInput.mat n M := by
        simpa using ha
      subst ha'
      show Except.ok (importInferSquare n M) = _
      rw [hr]
    rw [adjacencyOfList]
    simp only [validType, if_true]
    rw [hmapM]
    simp [allSame, ndAsRow]

def matC3 : Mat := fun _ _ => 2

theorem claim_c3_witness :
    (∃ A, adjacencyOf (.mat 1 matC3) none none = .ok A ∧ A.matrix_type = none) ∧
    (∃ B, adjacencyOfList [.mat 1 matC3, .mat 1 matC3] none = .ok B ∧
      B.matrix_type = none ∧ B.is_single_matrix = false ∧
      meanAxis0 B = .error msgConcatNone) :=
  claim_c3 1 matC3 (by decide)
    (by norm_num [diagSum, List.range, List.range.loop, matC3])
    (by norm_num [diagSum, List.range, List.range.loop, matC3])

/-! ## Claim C4: stacking consistency -/

/-- The import result of a single element (total; list construction only
reaches it after `mapM` succeeded). -/
def importOr (inp : NPInput) : ImportResult :=
  match importSingle inp none with
  | .ok r => r
  | .error _ => defaultIR

/-- C4 (amended: the list must be nonempty; on the empty list `data[0]`
raises `IndexError` before any instance is produced).  Constructing from a
nonempty list of k same-shaped square matrices that all resolve to the same
`issymmetric` and the same `matrix_type` yields `is_single_matrix = false`,
`len == k` and `shape()[0] == k`; if some element resolves to a different
`issymmetric` or a different `matrix_type`, construction fails with one of
the two validation errors. -/
theorem claim_c4 (n : ℕ) (M0 : Mat) (Ms : List Mat) :
    ((∃ s t, ∀ M ∈ M0 :: Ms, (importInferSquare n M).issymmetric = s ∧
        (importInferSquare n M).matrix_type = t) →
      ∃ A, adjacencyOfList ((M0 :: Ms).map (fun M => NPInput.mat n M)) none = .ok A ∧
        A.is_single_matrix = false ∧ lenAdj A = (M0 :: Ms).length ∧
        (shapeND A.data).headD 0 = (M0 :: Ms).length) ∧
    (¬ (allSame ((M0 :: Ms).map (fun M => (importInferSquare n M).issymmetric)) = true ∧
        allSame ((M0 :: Ms).map (fun M => (importInferSquare n M).matrix_type)) = true) →
      adjacencyOfList ((M0 :: Ms).map (fun M => NPInput.mat n M)) none
        = .error msgSymMismatch ∨
      adjacencyOfList ((M0 :: Ms).map (fun M => NPInput.mat n M)) none
        = .error msgTypeMismatch) := by
  have hg : ∀ a ∈ (M0 :: Ms).map (fun M => NPInput.mat n M),
      (fun m => importSingle m none) a = .ok (importOr a) := by
    intro a ha
    obtain ⟨M, _, rfl⟩ := List.mem_map.mp ha
    rfl
  have hmapM : ((M0 :: Ms).map (fun M => NPInput.mat n M)).mapM
      (fun m => importSingle m none)
      = .ok ((M0 :: Ms).map (fun M => importInferSquare n M)) := by
    have h1 := mapM_ok (fun m => importSingle m none) importOr _ hg
    rw [h1, List.map_map]
    rfl
  have hmapM2 : (NPInput.mat n M0 :: Ms.map (fun M => NPInput.mat n M)).mapM
      (fun m => importSingle m none)
      = .ok (importInferSquare n M0 :: Ms.map (fun M => importInferSquare n M)) := by
    simpa [List.map_cons] using hmapM
  have hrw : adjacencyOfList ((M0 :: Ms).map (fun M => NPInput.mat n M)) none
      = (if allSame ((importInferSquare n M0).issymmetric
            :: Ms.map (fun M => (importInferSquare n M).issymmetric)) then
          if allSame ((importInferSquare n M0).matrix_type
              :: Ms.map (fun M => (importInferSquare n M).matrix_type)) then
            .ok ⟨.two (ndAsRow (importInferSquare n M0).data
                :: Ms.map (fun M => ndAsRow (importInferSquare n M).data)),
              (importInferSquare n M0).issymmetric,
              (importInferSquare n M0).matrix_type, false, none⟩
          else .error msgTypeMismatch
        else .error msgSymMismatch) := by
    rw [adjacencyOfList.eq_def]
    simp only [validType, if_true, List.map_cons]
    rw [hmapM2]
    simp only [List.map_cons, List.map_map, List.headD_cons]
    rfl
  constructor
  · rintro ⟨s, t, hsame⟩
    have hall1 : allSame ((M0 :: Ms).map
        (fun M => (importInferSquare n M).issymmetric)) = true := by
      apply allSame_of_eq _ s
      intro x hx
      obtain ⟨M, hM, rfl⟩ := List.mem_map.mp hx
      exact (hsame M hM).1
    have hall2 : allSame ((M0 :: Ms).map
        (fun M => (importInferSquare n M).matrix_type)) = true := by
      apply allSame_of_eq _ t
      intro x hx
      obtain ⟨M, hM, rfl⟩ := List.mem_map.mp hx
      exact (hsame M hM).2
    simp only [List.map_cons] at hall1 hall2
    refine ⟨⟨.two (ndAsRow (importInferSquare n M0).data
        :: Ms.map (fun M => ndAsRow (importInferSquare n M).data)),
      (importInferSquare n M0).issymmetric,
      (importInferSquare n M0).matrix_type, false, none⟩, ?_, rfl, ?_, ?_⟩
    · rw [hrw, if_pos hall1, if_pos hall2]
    · simp [lenAdj, nd0]
    · simp [shapeND]
  · intro hmis
    simp only [List.map_cons] at hmis
    by_cases hall1 : allSame ((importInferSquare n M0).issymmetric
        :: Ms.map (fun M => (importInferSquare n M).issymmetric)) = true
    · right
      have hall2 : ¬ allSame ((importInferSquare n M0).matrix_type
          :: Ms.map (fun M => (importInferSquare n M).matrix_type)) = true := by
        intro hc
        exact hmis ⟨hall1, hc⟩
      rw [hrw, if_pos hall1, if_neg hall2]
    · left
      rw [hrw, if_neg hall1]

theorem claim_c4_witness :
    ∃ A, adjacencyOfList ((mat03 :: [mat03]).map (fun M => NPInput.mat 2 M)) none
        = .ok A ∧
      A.is_single_matrix = false ∧ lenAdj A = 2 ∧ (shapeND A.data).headD 0 = 2 := by
  have hd : diagSum mat03 2 = 0 := by
    norm_num [diagSum, List.range, List.range.loop, mat03]
  have hmt : (importInferSquare 2 mat03).matrix_type = some mtDistance := by
    rw [importInferSquare_sym 2 mat03 (by decide)]
    dsimp only
    rw [if_pos hd]
  have hsym : (importInferSquare 2 mat03).issymmetric = true := by
    rw [importInferSquare_sym 2 mat03 (by decide)]
  refine (claim_c4 2 mat03 [mat03]).1 ⟨true, some mtDistance, ?_⟩
  intro M hM
  have hM' : M = mat03 := by simpa using hM
  subst hM'
  exact ⟨hsym, hmt⟩

/-- C4 counterexample: constructing from the empty list (k = 0 same-shaped,
same-type matrices, vacuously) raises `IndexError` at `data[0]` instead of
yielding an instance of length 0. -/
theorem claim_c4_counterexample :
    adjacencyOfList [] none = .error msgListIndex ∧
    ¬ ∃ A, adjacencyOfList ([] : List NPInput) none = .ok A := by
  constructor
  · rfl
  · rintro ⟨A, hA⟩
    rw [show adjacencyOfList [] none = .error msgListIndex from rfl] at hA
    cases hA

/-! ## Claim C5: length and iteration -/

/-- C5 (amended: iteration over a stacked instance yields one single-matrix
instance per stored row; but on an instance that holds a single matrix,
`self[0]` evaluates `data[0, :]` on a 1-D array and iteration raises
`IndexError` instead of yielding the instance itself).  `len` is 1 for a
single matrix and the number of stacked rows otherwise. -/
theorem claim_c5 (A : Adjacency) :
    (A.is_single_matrix = true → lenAdj A = 1) ∧
    (∀ m, A.data = .two m → A.is_single_matrix = false →
      lenAdj A = m.length ∧
      iterAdj A = .ok (m.map (fun row =>
        { A with data := .one row, is_single_matrix := true }))) ∧
    (∀ v, A.data = .one v → A.is_single_matrix = true →
      iterAdj A = .error msgTooManyIndices) := by
  refine ⟨?_, ?_, ?_⟩
  · intro h
    simp [lenAdj, h]
  · intro m hdata hsingle
    have hlen : lenAdj A = m.length := by
      simp [lenAdj, hsingle, nd0, hdata]
    refine ⟨hlen, ?_⟩
    rw [iterAdj, hlen]
    have hitem : ∀ i ∈ List.range m.length, getItemInt A i
        = .ok ({ A with data := .one (m.getD i []), is_single_matrix := true }) := by
      intro i hi
      rw [getItemInt.eq_def, hdata]
      dsimp only
      rw [if_pos (List.mem_range.mp hi)]
    rw [mapM_ok (getItemInt A)
      (fun i => { A with data := .one (m.getD i []), is_single_matrix := true })
      _ hitem]
    congr 1
    exact map_range_getD m []
      (fun row => { A with data := .one row, is_single_matrix := true })
  · intro v hdata hsingle
    rw [iterAdj]
    have hl : lenAdj A = 1 := by simp [lenAdj, hsingle]
    rw [hl]
    have h0 : getItemInt A 0 = .error msgTooManyIndices := by
      rw [getItemInt.eq_def, hdata]
    show ([0].mapM (getItemInt A)) = _
    rw [List.mapM_cons, h0]
    rfl

def stackedW : Adjacency := ⟨.two [[3], [3]], true, some mtDistance, false, none⟩

def singleW : Adjacency := ⟨.one [3], true, some mtDistance, true, none⟩

theorem claim_c5_witness :
    (lenAdj stackedW = 2 ∧
      iterAdj stackedW = .ok ([[(3 : ℚ)], [3]].map (fun row =>
        { stackedW with data := .one row, is_single_matrix := true }))) ∧
    lenAdj singleW = 1 := by
  constructor
  · exact (claim_c5 stackedW).2.1 [[3], [3]] rfl rfl
  · exact (claim_c5 singleW).1 rfl

/-- C5 counterexample: a single-matrix instance (here the one constructed
from `[[0,3],[3,0]]`) has `len == 1`, but iterating it raises `IndexError`
(`data[0, :]` on a 1-D array) instead of producing a one-element sequence. -/
theorem claim_c5_counterexample :
    adjacencyOf (.mat 2 mat03) none none
      = .ok ⟨.one (triuVec mat03 2), true, some mtDistance, true, none⟩ ∧
    lenAdj ⟨.one (triuVec mat03 2), true, some mtDistance, true, none⟩ = 1 ∧
    iterAdj ⟨.one (triuVec mat03 2), true, some mtDistance, true, none⟩
      = .error msgTooManyIndices := by
  have hd : diagSum mat03 2 = 0 := by
    norm_num [diagSum, List.range, List.range.loop, mat03]
  refine ⟨?_, rfl, rfl⟩
  rw [adjacencyOf_none_mat, importInferSquare_sym 2 mat03 (by decide)]
  dsimp only
  rw [if_pos hd]

/-! ## Claim C6: thresholding postconditions -/

theorem mem_ndToList_mapND (f : ℚ → ℚ) (d : NDArray) (x : ℚ)
    (hx : x ∈ ndToList (mapND f d)) : ∃ y, x = f y := by
  cases d with
  | one v =>
    simp only [mapND, ndToList, List.mem_map] at hx
    obtain ⟨y, _, hy⟩ := hx
    exact ⟨y, hy.symm⟩
  | two m =>
    simp only [mapND, ndToList, List.mem_flatten, List.mem_map] at hx
    obtain ⟨row, ⟨r, _, hr⟩, hrow⟩ := hx
    subst hr
    obtain ⟨y, _, hy⟩ := List.mem_map.mp hrow
    exact ⟨y, hy.symm⟩

/-- C6 (amended: the nonzero-below-cutoff postcondition needs a nonzero
cutoff `X`; `threshold(upper=0)` is a silent no-op because `0.0` is falsy in
the source's `if upper:` guards).  For a nonzero numeric cutoff `X`,
`threshold(upper=X)` leaves no stored value that is both nonzero and below
`X`; `threshold(binarize=True)` leaves only values in `{0, 1}`; thresholding
always returns a new instance computed from a copy (the model is pure, so
the receiver is unchanged by construction). -/
theorem claim_c6 (A : Adjacency) (u : ℚ) (hu : u ≠ 0) :
    (∀ x ∈ ndToList (thresholdAdj A (some u) none false).data, x ≠ 0 → ¬ x < u) ∧
    (∀ upper lower : Option ℚ,
      ∀ x ∈ ndToList (thresholdAdj A upper lower true).data, x = 0 ∨ x = 1) := by
  have hteq : thresholdAdj A (some u) none false
      = { A with data := mapND (fun x => if x < u then 0 else x) A.data } := by
    simp [thresholdAdj, truthy, hu]
  constructor
  · intro x hx hx0
    rw [hteq] at hx
    obtain ⟨y, hy⟩ := mem_ndToList_mapND _ _ _ hx
    by_cases hyu : y < u
    · rw [hy, if_pos hyu] at hx0
      exact absurd rfl hx0
    · rw [hy, if_neg hyu]
      exact hyu
  · intro upper lower x hx
    rw [thresholdAdj] at hx
    simp only [if_true] at hx
    obtain ⟨y, hy⟩ := mem_ndToList_mapND _ _ _ hx
    by_cases hy0 : y ≠ 0
    · right
      rw [hy, if_pos hy0]
    · left
      rw [hy, if_neg hy0]
      simpa using hy0

theorem claim_c6_witness :
    (∀ x ∈ ndToList (thresholdAdj singleW (some 5) none false).data,
      x ≠ 0 → ¬ x < 5) ∧
    (∀ upper lower : Option ℚ,
      ∀ x ∈ ndToList (thresholdAdj singleW upper lower true).data,
      x = 0 ∨ x = 1) :=
  claim_c6 singleW 5 (by norm_num)

def matD : Mat := fun i j =>
  if i = 0 ∧ j = 1 then -1 else if i = 1 ∧ j = 0 then 2 else 0

def adjD : Adjacency := ⟨.one [0, -1, 2, 0], false, some mtDirected, true, none⟩

/-- C6 counterexample: on the directed instance built from
`[[0,-1],[2,0]]`, `threshold(upper=0)` is a no-op (`0.0` is falsy), so the
result still stores `-1`, which is nonzero and below the cutoff `0`. -/
theorem claim_c6_counterexample :
    adjacencyOf (.mat 2 matD) none none = .ok adjD ∧
    thresholdAdj adjD (some 0) none false = adjD ∧
    (-1 : ℚ) ∈ ndToList (thresholdAdj adjD (some 0) none false).data ∧
    (-1 : ℚ) ≠ 0 ∧ (-1 : ℚ) < 0 := by
  have hflat : flattenMat matD 2 = [0, -1, 2, 0] := by
    norm_num [flattenMat, flatFromAux, flatRowVec, matD, List.range, List.range.loop]
  have hnoop : thresholdAdj adjD (some 0) none false = adjD := by
    simp [thresholdAdj, truthy]
  refine ⟨?_, hnoop, ?_, by norm_num, by norm_num⟩
  · rw [adjacencyOf_none_mat, importInferSquare_asym 2 matD (by decide), hflat]
    rfl
  · rw [hnoop]
    simp [adjD, ndToList]

/-! ## Claim C7: similarity/distance conversion -/

/-- C7 (amended: the converted instance's square form agrees with
`1 - squareform(receiver)` at every off-diagonal entry but its diagonal is
re-normalised to zero by the canonical storage, not to `1 - 0 = 1`; the
success case is stated for single-matrix instances whose stored vector has a
valid triangular length).  `similarity_to_distance` errors on every
`matrix_type` other than `similarity` and `distance_to_similarity` errors on
every `matrix_type` other than `distance`; on a similarity instance the
conversion yields a `distance` instance carrying the same labels. -/
theorem claim_c7 (A : Adjacency) :
    (A.matrix_type ≠ some mtSimilarity →
      similarityToDistance A = .error msgNotSimilarityMat) ∧
    (∀ f, A.matrix_type ≠ some mtDistance →
      distanceToSimilarity A f = .error msgNotDistanceMat) ∧
    (∀ v n S, A.data = .one v → A.issymmetric = true →
      A.matrix_type = some mtSimilarity →
      scipySquareformVec v = .ok (n, S) →
      (A.labels = none ∨ ∃ l, A.labels = some l ∧ l.length = n) →
      ∃ B, similarityToDistance A = .ok B ∧
        B.matrix_type = some mtDistance ∧ B.labels = A.labels ∧
        B.is_single_matrix = true ∧ B.issymmetric = true ∧
        ∃ T, squareformSingleAdj B = .ok (n, T) ∧
          (∀ i, i < n → ∀ j, j < n → i ≠ j → T i j = 1 - S i j) ∧
          (∀ i, i < n → T i i = 0)) := by
  refine ⟨?_, ?_, ?_⟩
  · intro h
    rw [similarityToDistance, if_neg h]
  · intro f h
    rw [distanceToSimilarity, if_neg h]
  · intro v n S hdata hsym hmt hsq hlab
    obtain ⟨hSsym, _hSdiag, hn1⟩ := scipy_ok_props v n S hsq
    have hsymM : issym (fun i j => 1 - S i j) n = true := by
      rw [issym_iff]
      intro i hi j hj hij
      rw [hSsym i j]
    have hsqA : squareformSingleAdj A = .ok (n, S) := by
      rw [squareformSingleAdj.eq_def, hdata]
      dsimp only
      rw [if_pos hsym]
      exact hsq
    obtain ⟨T, hT, hToff, hTdiag⟩ :=
      scipy_triuVec_roundtrip (fun i j => 1 - S i j) n hn1 hsymM
    have himp : importSingle (.mat n (fun i j => 1 - S i j)) (some mtDistance)
        = .ok ⟨.one (triuVec (fun i j => 1 - S i j) n), true, some mtDistance, true⟩ := by
      rw [importSingle.eq_def]
      dsimp only
      rw [if_neg (by decide : ¬ (mtDistance = mtDistanceFlat)),
        if_neg (by decide : ¬ (mtDistance = mtSimilarityFlat)),
        if_neg (by decide : ¬ (mtDistance = mtDirectedFlat)),
        if_pos (Or.inl rfl : mtDistance = mtDistance ∨ mtDistance = mtSimilarity)]
    have hstep : similarityToDistance A
        = adjacencyOf (.mat n (fun i j => 1 - S i j)) (some mtDistance) A.labels := by
      rw [similarityToDistance, if_pos hmt, hsqA]
    have hok : adjacencyOf (.mat n (fun i j => 1 - S i j)) (some mtDistance) A.labels
        = attachLabels ⟨.one (triuVec (fun i j => 1 - S i j) n), true,
            some mtDistance, true, none⟩ A.labels := by
      rw [adjacencyOf, if_pos (by decide : validType (some mtDistance) = true), himp]
    have hsqB : ∀ lab, squareformSingleAdj ⟨.one (triuVec (fun i j => 1 - S i j) n),
        true, some mtDistance, true, lab⟩ = .ok (n, T) := by
      intro lab
      rw [squareformSingleAdj.eq_def]
      dsimp only
      rw [if_pos rfl]
      exact hT
    rcases hlab with hnone | ⟨l, hl, hlen⟩
    · refine ⟨⟨.one (triuVec (fun i j => 1 - S i j) n), true, some mtDistance,
        true, none⟩, ?_, rfl, ?_, rfl, rfl, T, hsqB none, ?_, hTdiag⟩
      · rw [hstep, hok, hnone]
        rfl
      · rw [hnone]
      · intro i hi j hj hij
        exact hToff i hi j hj hij
    · refine ⟨⟨.one (triuVec (fun i j => 1 - S i j) n), true, some mtDistance,
        true, some l⟩, ?_, rfl, ?_, rfl, rfl, T, hsqB (some l), ?_, hTdiag⟩
      · have hss : squareShape0 ⟨.one (triuVec (fun i j => 1 - S i j) n), true,
            some mtDistance, true, none⟩ = .ok n := by
          rw [squareShape0, hsqB none]
          rfl
        rw [hstep, hok, hl, attachLabels, hss]
        dsimp only
        rw [if_pos hlen]
      · rw [hl]
      · intro i hi j hj hij
        exact hToff i hi j hj hij

/-- `scipy.squareform` of a one-element vector: a `2 × 2` matrix. -/
theorem scipy_single (q : ℚ) : scipySquareformVec [q]
    = .ok (2, fun i j => if i < j then [q].getD (triuIdx 2 i j) 0
        else if j < i then [q].getD (triuIdx 2 j i) 0 else 0) := by
  have hsq1 : Nat.sqrt 2 = 1 := nat_sqrt_eq_of 2 1 (by norm_num) (by norm_num)
  have hcs : ceilSqrt 2 = 2 := by
    rw [ceilSqrt, hsq1]
    norm_num
  rw [scipySquareformVec]
  simp only [List.length_singleton]
  rw [if_neg (by norm_num : ¬ (1 = 0))]
  norm_num [hcs]

def adjSim : Adjacency := ⟨.one [3], true, some mtSimilarity, true, none⟩

def sW : Mat := fun i j =>
  if i < j then [(3 : ℚ)].getD (triuIdx 2 i j) 0
  else if j < i then [(3 : ℚ)].getD (triuIdx 2 j i) 0 else 0

theorem claim_c7_witness :
    ∃ B, similarityToDistance adjSim = .ok B ∧
      B.matrix_type = some mtDistance ∧ B.labels = adjSim.labels ∧
      B.is_single_matrix = true ∧ B.issymmetric = true ∧
      ∃ T, squareformSingleAdj B = .ok (2, T) ∧
        (∀ i, i < 2 → ∀ j, j < 2 → i ≠ j → T i j = 1 - sW i j) ∧
        (∀ i, i < 2 → T i i = 0) :=
  (claim_c7 adjSim).2.2 [3] 2 sW rfl rfl rfl (scipy_single 3) (Or.inl rfl)

def simMat : Mat := fun i j => if i = j then 1 else 3

/-- C7 counterexample: on the similarity instance built from
`[[1,3],[3,1]]`, `1 - squareform(receiver)` has `1` at the diagonal entry
`(0,0)` (the receiver's square form has a zero diagonal), but the converted
instance's square form has `0` there: the result's square form is **not**
`1 -` the receiver's square form. -/
theorem claim_c7_counterexample :
    adjacencyOf (.mat 2 simMat) none none = .ok adjSim ∧
    (squareformSingleAdj adjSim).map (fun p => 1 - p.2 0 0) = .ok 1 ∧
    (similarityToDistance adjSim).bind
      (fun B => (squareformSingleAdj B).map (fun p => p.2 0 0)) = .ok 0 ∧
    (0 : ℚ) ≠ 1 := by
  have h1 : squareformSingleAdj adjSim = .ok (2, sW) := by
    rw [squareformSingleAdj.eq_def]
    dsimp only [adjSim]
    rw [if_pos rfl]
    exact scipy_single 3
  have htri : triuVec (fun i j => 1 - sW i j) 2 = [-2] := by
    norm_num [triuVec, triuFromAux, triuRowVec, List.range', sW, triuIdx, rowStart]
  have himp2 : importSingle (.mat 2 (fun i j => 1 - sW i j)) (some mtDistance)
      = .ok ⟨.one [-2], true, some mtDistance, true⟩ := by
    rw [importSingle.eq_def]
    dsimp only
    rw [if_neg (by decide : ¬ (mtDistance = mtDistanceFlat)),
      if_neg (by decide : ¬ (mtDistance = mtSimilarityFlat)),
      if_neg (by decide : ¬ (mtDistance = mtDirectedFlat)),
      if_pos (Or.inl rfl : mtDistance = mtDistance ∨ mtDistance = mtSimilarity),
      htri]
  have hB : similarityToDistance adjSim = .ok ⟨.one [-2], true, some mtDistance,
      true, none⟩ := by
    rw [similarityToDistance,
      if_pos (show adjSim.matrix_type = some mtSimilarity from rfl), h1]
    dsimp only
    rw [adjacencyOf, if_pos (by decide : validType (some mtDistance) = true), himp2]
    rfl
  refine ⟨?_, ?_, ?_, by norm_num⟩
  · have hd0 : ¬ diagSum simMat 2 = 0 := by
      norm_num [diagSum, simMat, List.range, List.range.loop]
    have hd2 : diagSum simMat 2 = ((2 : ℕ) : ℚ) := by
      norm_num [diagSum, simMat, List.range, List.range.loop]
    have ht : triuVec simMat 2 = [3] := by
      norm_num [triuVec, triuFromAux, triuRowVec, List.range', simMat]
    rw [adjacencyOf_none_mat, importInferSquare_sym 2 simMat (by decide)]
    dsimp only
    rw [if_neg hd0, if_pos hd2, ht]
    rfl
  · rw [h1]
    show Except.ok (1 - sW 0 0) = .ok 1
    norm_num [sW]
  · rw [hB]
    show (squareformSingleAdj ⟨.one [-2], true, some mtDistance, true, none⟩).map
      (fun p => p.2 0 0) = .ok 0
    rw [squareformSingleAdj.eq_def]
    dsimp only
    rw [if_pos rfl, scipy_single (-2)]
    rfl

/-! ## Claim C8: arithmetic identities and shape checking -/

/-- A genuine numpy 2-D array has rows of equal length; 1-D arrays are
trivially rectangular. -/
def rectND : NDArray → Bool
  | .one _ => true
  | .two m => m.all (fun r => r.length = (m.headD []).length)

theorem zipWith_add_sub : ∀ (v w : List ℚ), v.length = w.length →
    List.zipWith (fun x y => x - y) (List.zipWith (fun x y => x + y) v w) w = v := by
  intro v
  induction v with
  | nil => intro w _; simp
  | cons x xs ih =>
    intro w h
    cases w with
    | nil => simp at h
    | cons y ys =>
      simp only [List.zipWith_cons_cons, List.cons.injEq]
      constructor
      · ring
      · exact ih ys (by simpa using h)

theorem zipWith2_add_sub : ∀ (a b : List (List ℚ)),
    List.Forall₂ (fun r s => r.length = s.length) a b →
    List.zipWith (fun r s => List.zipWith (fun x y => x - y) r s)
      (List.zipWith (fun r s => List.zipWith (fun x y => x + y) r s) a b) b = a := by
  intro a b h
  induction h with
  | nil => rfl
  | cons hrs _ ih =>
    simp only [List.zipWith_cons_cons, List.cons.injEq]
    exact ⟨zipWith_add_sub _ _ hrs, ih⟩

theorem forall₂_length (La : ℕ) : ∀ (a b : List (List ℚ)),
    a.length = b.length →
    (∀ r ∈ a, r.length = La) → (∀ s ∈ b, s.length = La) →
    List.Forall₂ (fun r s => r.length = s.length) a b := by
  intro a
  induction a with
  | nil =>
    intro b hab _ _
    cases b with
    | nil => constructor
    | cons s ss => simp at hab
  | cons r rs ih =>
    intro b hab ha hb
    cases b with
    | nil => simp at hab
    | cons s ss =>
      constructor
      · rw [ha r (by simp), hb s (by simp)]
      · exact ih ss (by simpa using hab) (fun x hx => ha x (by simp [hx]))
          (fun x hx => hb x (by simp [hx]))

theorem rectND_rows (m : List (List ℚ)) (h : rectND (.two m) = true) :
    ∀ r ∈ m, r.length = (m.headD []).length := by
  intro r hr
  have := (List.all_eq_true.mp h) r hr
  simpa using this

theorem shapeND_zipND (f : ℚ → ℚ → ℚ) (d e : NDArray)
    (h : shapeND d = shapeND e) : shapeND (zipND f d e) = shapeND d := by
  cases d with
  | one v =>
    cases e with
    | one w =>
      simp only [shapeND, List.cons.injEq, and_true] at h
      simp [zipND, shapeND, h]
    | two m => simp [shapeND] at h
  | two a =>
    cases e with
    | one w => simp [shapeND] at h
    | two b =>
      simp only [shapeND, List.cons.injEq, and_true] at h
      obtain ⟨hlen, hrow⟩ := h
      cases a with
      | nil =>
        cases b with
        | nil => rfl
        | cons s ss => simp at hlen
      | cons r rs =>
        cases b with
        | nil => simp at hlen
        | cons s ss =>
          simp only [zipND, shapeND, List.zipWith_cons_cons, List.length_cons,
            List.headD_cons] at hrow ⊢
          have h1 : rs.length = ss.length := by simpa using hlen
          simp [List.length_zipWith, hrow, h1]

theorem zipND_add_sub (d e : NDArray) (hd : rectND d = true) (he : rectND e = true)
    (h : shapeND d = shapeND e) :
    zipND (fun x y => x - y) (zipND (fun x y => x + y) d e) e = d := by
  cases d with
  | one v =>
    cases e with
    | one w =>
      simp only [shapeND, List.cons.injEq, and_true] at h
      simp only [zipND]
      rw [zipWith_add_sub v w h]
    | two m => simp [shapeND] at h
  | two a =>
    cases e with
    | one w => simp [shapeND] at h
    | two b =>
      simp only [shapeND, List.cons.injEq, and_true] at h
      obtain ⟨hlen, hrow⟩ := h
      simp only [zipND]
      rw [zipWith2_add_sub a b]
      apply forall₂_length ((a.headD []).length) a b hlen (rectND_rows a hd)
      intro s hs
      rw [rectND_rows b he s hs, hrow]

theorem mapND_mul_one (d : NDArray) :
    mapND (fun x => x * ((1 : ℤ) : ℚ)) d = d := by
  cases d with
  | one v =>
    simp [mapND]
  | two m =>
    simp [mapND]

/-- C8: for same-shaped instances, `(A + B) - B` recovers `A` exactly (the
result of each operator copies every non-data field from the left operand),
`A * 1` is `A`, and each operator fails with a shape-mismatch error on
instances of different `shape()`. -/
theorem claim_c8 (A B : Adjacency) (hA : rectND A.data = true)
    (hB : rectND B.data = true) :
    (shapeND A.data = shapeND B.data →
      ∃ C, addAdj A (.adj B) = .ok C ∧ subAdj C (.adj B) = .ok A ∧
        C.issymmetric = A.issymmetric ∧ C.matrix_type = A.matrix_type ∧
        C.is_single_matrix = A.is_single_matrix ∧ C.labels = A.labels) ∧
    mulAdj A (.int 1) = .ok A ∧
    (shapeND A.data ≠ shapeND B.data →
      addAdj A (.adj B) = .error msgShape ∧ subAdj A (.adj B) = .error msgShape ∧
      mulAdj A (.adj B) = .error msgShape) := by
  refine ⟨?_, ?_, ?_⟩
  · intro hsh
    refine ⟨{ A with data := zipND (fun x y => x + y) A.data B.data },
      ?_, ?_, rfl, rfl, rfl, rfl⟩
    · have he : addAdj A (.adj B) = if shapeND A.data = shapeND B.data then
          .ok { A with data := zipND (fun x y => x + y) A.data B.data }
        else .error msgShape := rfl
      rw [he, if_pos hsh]
    · have hsh2 : shapeND (zipND (fun x y => x + y) A.data B.data)
          = shapeND B.data := by
        rw [shapeND_zipND _ _ _ hsh]
        exact hsh
      have he : subAdj { A with data := zipND (fun x y => x + y) A.data B.data }
          (.adj B) = if shapeND (zipND (fun x y => x + y) A.data B.data)
            = shapeND B.data then
          .ok { A with
            data := zipND (fun x y => x - y) (zipND (fun x y => x + y) A.data B.data) B.data }
        else .error msgShape := rfl
      rw [he, if_pos hsh2, zipND_add_sub A.data B.data hA hB hsh]
  · have he : mulAdj A (.int 1)
        = .ok { A with data := mapND (fun x => x * ((1 : ℤ) : ℚ)) A.data } := rfl
    rw [he, mapND_mul_one]
  · intro hsh
    have hadd : addAdj A (.adj B) = if shapeND A.data = shapeND B.data then
        .ok { A with data := zipND (fun x y => x + y) A.data B.data }
      else .error msgShape := rfl
    have hsub : subAdj A (.adj B) = if shapeND A.data = shapeND B.data then
        .ok { A with data := zipND (fun x y => x - y) A.data B.data }
      else .error msgShape := rfl
    have hmul : mulAdj A (.adj B) = if shapeND A.data = shapeND B.data then
        .ok { A with data := zipND (fun x y => x * y) A.data B.data }
      else .error msgShape := rfl
    exact ⟨by rw [hadd, if_neg hsh], by rw [hsub, if_neg hsh],
      by rw [hmul, if_neg hsh]⟩

def adjB8 : Adjacency := ⟨.one [5, 7], true, some mtDistance, true, none⟩

def adjA8 : Adjacency := ⟨.one [1, 2], true, some mtDistance, true, none⟩

theorem claim_c8_witness :
    ∃ C, addAdj adjA8 (.adj adjB8) = .ok C ∧ subAdj C (.adj adjB8) = .ok adjA8 ∧
      C.issymmetric = adjA8.issymmetric ∧ C.matrix_type = adjA8.matrix_type ∧
      C.is_single_matrix = adjA8.is_single_matrix ∧ C.labels = adjA8.labels :=
  (claim_c8 adjA8 adjB8 rfl rfl).1 rfl

/-! ## Claim C9: ttest requires a stacked collection -/

/-- C9: `ttest()` on a single-matrix instance fails with the state error
"t-test cannot be run on single matrices."; a successful `ttest()` can only
happen on a stacked instance. -/
theorem claim_c9 (A : Adjacency) :
    (A.is_single_matrix = true → ttestAdj A = .error msgTTestSingle) ∧
    (∀ u, ttestAdj A = .ok u → A.is_single_matrix = false) := by
  constructor
  · intro h
    rw [ttestAdj, if_pos h]
  · intro u hu
    by_cases h : A.is_single_matrix = true
    · rw [ttestAdj, if_pos h] at hu
      cases hu
    · simpa using h

theorem claim_c9_witness : ttestAdj singleW = .error msgTTestSingle :=
  (claim_c9 singleW).1 rfl

/-! ## Claim C10: operators silently ignore unsupported operand types -/

/-- C10 (implicit): for an operand that is neither an int, a float, nor an
Adjacency (a string, list, numpy array, …), each of `+`, `-`, `*` falls
through both `isinstance` tests and returns the unchanged deep copy of the
receiver — no error, no data combined. -/
theorem claim_c10 (A : Adjacency) :
    addAdj A .other = .ok A ∧ subAdj A .other = .ok A ∧
    mulAdj A .other = .ok A :=
  ⟨rfl, rfl, rfl⟩
